import Mathlib

/-!
Verification of the superstore cart/checkout program (src/store.ts).

The MongoDB collections are embedded as lists of records; `findOne {k: v}`
becomes `List.find?` (first match), `updateOne` becomes an update of the
first matching element, `deleteOne` removes the first matching element, and
`insertOne` appends.  The fallible order-ledger insert of `placeOrder` is
modelled by a boolean oracle `appendOk`; the interactive confirmation prompt
by the boolean `confirm`, and `new Date()` by an explicit `now` argument.
-/

namespace Superstore

/-- Product document (interface Product, store.ts lines 7-13).  `ObjectId`
is embedded as `Nat`; the numeric price as `Int` (no claim computes on it). -/
structure Product where
  id : Nat
  name : String
  price : Int
  quantity : Int
  seller_id : String
deriving DecidableEq

/-- Cart line (interface CartItem, store.ts lines 15-20): a snapshot of the
product's id, name and price taken when the line is added, plus a quantity. -/
structure CartItem where
  productId : Nat
  name : String
  price : Int
  quantity : Int
deriving DecidableEq

/-- One buyer's cart document in the `cart` collection. -/
structure Cart where
  userId : String
  items : List CartItem
deriving DecidableEq

/-- Shipping address gathered by the CLI before the order is attempted
(store.ts lines 269-277). -/
structure Address where
  doorNo : String
  streetArea : String
  cityPincode : String
deriving DecidableEq

/-- Order document inserted by `placeOrder` (store.ts lines 308-314). -/
structure Order where
  userId : String
  items : List CartItem
  orderDate : Nat
  paymentMethod : String
  address : Address
deriving DecidableEq

/-- The database: the three collections touched by the operations under
verification. -/
structure DB where
  products : List Product
  carts : List Cart
  orders : List Order
deriving DecidableEq

/-- Mongo `updateOne` / in-place mutation of the first element satisfying a
predicate; the rest of the list is untouched. -/
def updateFirst {α : Type} (pr : α → Bool) (f : α → α) : List α → List α
  | [] => []
  | x :: xs => if pr x then f x :: xs else x :: updateFirst pr f xs

/-- Mongo `deleteOne`: remove the first element satisfying the predicate. -/
def removeFirst {α : Type} (pr : α → Bool) : List α → List α
  | [] => []
  | x :: xs => if pr x then xs else x :: removeFirst pr xs

/-- Mongo `products.findOne({_id: pid})`. -/
def findOneProduct (ps : List Product) (pid : Nat) : Option Product :=
  ps.find? (fun p => p.id == pid)

/-- Mongo `products.updateOne({_id: pid}, {$inc: {quantity: delta}})`. -/
def incQuantity (ps : List Product) (pid : Nat) (delta : Int) : List Product :=
  updateFirst (fun p => p.id == pid) (fun p => { p with quantity := p.quantity + delta }) ps

/-- Mongo `cart.findOne({userId: uid})`. -/
def findCart (carts : List Cart) (uid : String) : Option Cart :=
  carts.find? (fun c => c.userId == uid)

/-- Stock level of a product, read back from the database. -/
def stockOf (db : DB) (pid : Nat) : Option Int :=
  (findOneProduct db.products pid).map (fun p => p.quantity)

/-- Items of a buyer's cart; an absent cart reads as the empty list. -/
def cartItemsOf (db : DB) (uid : String) : List CartItem :=
  match findCart db.carts uid with
  | none => []
  | some c => c.items

/-- Embedding of `addToCart` (store.ts lines 181-197): builds a CartItem snapshotting the
product's current name and price, then `cart.updateOne({userId},
{$addToSet: {items: cartItem}}, {upsert: true})` — the item is appended only
when no element of `items` equals the whole tuple; with no cart document a
fresh one is created. -/
def addToCart (db : DB) (userId : String) (product : Product) (quantity : Int) : DB :=
  let cartItem : CartItem :=
    { productId := product.id, name := product.name, price := product.price,
      quantity := quantity }
  match findCart db.carts userId with
  | none => { db with carts := db.carts ++ [{ userId := userId, items := [cartItem] }] }
  | some userCart =>
    let newCart :=
      if cartItem ∈ userCart.items then userCart
      else { userCart with items := userCart.items ++ [cartItem] }
    { db with carts := updateFirst (fun c => c.userId == userId) (fun _ => newCart) db.carts }

/-- Console outcome of `updateCartItem`. -/
inductive UpdateResult where
  | cartNotFound
  | removed
  | updated
  | notFoundInCart
deriving DecidableEq

/-- Embedding of `updateCartItem` (store.ts lines 222-252).  With `newQuantity ≤ 0` the
lines whose `name` equals `productName` are filtered out and the cart is
written back (a "removed" message is printed whether or not anything
matched); with `newQuantity > 0` the first line with that name gets its
quantity replaced, and when none exists the function returns before the
write-back. -/
def updateCartItem (db : DB) (userId : String) (productName : String) (newQuantity : Int) :
    DB × UpdateResult :=
  match findCart db.carts userId with
  | none => (db, .cartNotFound)
  | some userCart =>
    if newQuantity ≤ 0 then
      let newCart := { userCart with
        items := userCart.items.filter (fun item => item.name != productName) }
      ({ db with carts := updateFirst (fun c => c.userId == userId) (fun _ => newCart) db.carts },
       .removed)
    else if userCart.items.any (fun item => item.name == productName) then
      let newCart := { userCart with
        items := updateFirst (fun item => item.name == productName)
          (fun item => { item with quantity := newQuantity }) userCart.items }
      ({ db with carts := updateFirst (fun c => c.userId == userId) (fun _ => newCart) db.carts },
       .updated)
    else (db, .notFoundInCart)

/-- Console outcome of `placeOrder`. -/
inductive OrderResult where
  | emptyCart
  | cancelled
  | productNotFound (name : String)
  | insufficientStock (name : String)
  | appendFailed
  | success
deriving DecidableEq

/-- The reservation loop of `placeOrder` (store.ts lines 293-306): for each
cart item in cart order, `findOne` the product, throw when missing or when
its stock is below the requested quantity, otherwise `$inc` its quantity by
the negated requested quantity.  The returned product list reflects every
decrement performed before a failure — the loop is not transactional. -/
def reserveLoop : List CartItem → List Product → Option OrderResult × List Product
  | [], ps => (none, ps)
  | item :: rest, ps =>
    match findOneProduct ps item.productId with
    | none => (some (.productNotFound item.name), ps)
    | some product =>
      if product.quantity < item.quantity then (some (.insufficientStock item.name), ps)
      else reserveLoop rest (incQuantity ps item.productId (-item.quantity))

/-- Embedding of `placeOrder` (store.ts lines 254-326).  Reads the cart (absent or empty
cart aborts before anything else); an unconfirmed order is cancelled with no
effect; then the reservation loop runs, a thrown error being caught with the
partially decremented products left in place; on success the order is
inserted (`appendOk` models whether `orders.insertOne` succeeds — on failure
the catch block only logs, performing no compensation) and the cart document
is deleted. -/
def placeOrder (db : DB) (userId : String) (address : Address) (confirm : Bool)
    (appendOk : Bool) (now : Nat) : DB × OrderResult :=
  match findCart db.carts userId with
  | none => (db, .emptyCart)
  | some userCart =>
    if userCart.items.isEmpty then (db, .emptyCart)
    else if !confirm then (db, .cancelled)
    else
      match reserveLoop userCart.items db.products with
      | (some err, ps1) => ({ db with products := ps1 }, err)
      | (none, ps1) =>
        if appendOk then
          let newOrder : Order :=
            { userId := userId, items := userCart.items, orderDate := now,
              paymentMethod := "Cash on Delivery", address := address }
          ({ db with
              products := ps1,
              orders := db.orders ++ [newOrder],
              carts := removeFirst (fun c => c.userId == userId) db.carts }, .success)
        else ({ db with products := ps1 }, .appendFailed)

/-- The stock-mutation step of the seller's `updateStock` (store.ts lines
455-465): `selectedProduct` is the document read from the list shown to the
seller; a change that would drive the remembered quantity negative is
rejected without touching the database, otherwise the product's quantity is
incremented by `updateQuantity`. -/
def updateStock (db : DB) (selectedProduct : Product) (updateQuantity : Int) : DB × Bool :=
  if selectedProduct.quantity + updateQuantity < 0 then (db, false)
  else ({ db with products := incQuantity db.products selectedProduct.id updateQuantity }, true)

/-! ## Concrete fixtures used by the evaluation theorems -/

/-- A fixed address for concrete runs. -/
def addrX : Address := { doorNo := "1", streetArea := "st", cityPincode := "c" }

/-- Scenario B database: P (id 1) stock 5, Q (id 2) stock 2, and the buyer's
cart holding P×3 and Q×3. -/
def dbB : DB :=
  { products := [⟨1, "P", 10, 5, "s"⟩, ⟨2, "Q", 10, 2, "s"⟩],
    carts := [⟨"b", [⟨1, "P", 10, 3⟩, ⟨2, "Q", 10, 3⟩]⟩],
    orders := [] }

/-- Single product P with stock 5. -/
def productP : Product := ⟨1, "P", 10, 5, "s"⟩

/-- Database for the append-failure run: P stock 5 and a cart holding P×3. -/
def dbA : DB :=
  { products := [⟨1, "P", 10, 5, "s"⟩],
    carts := [⟨"b", [⟨1, "P", 10, 3⟩]⟩],
    orders := [] }

/-- Database for the C5 counterexample: a cart exists but holds no line
named "X". -/
def dbU : DB :=
  { products := [], carts := [⟨"b", [⟨1, "P", 10, 2⟩]⟩], orders := [] }

/-- Database for the C6 counterexample: only P (id 1) exists, with stock 0;
the cart lists Q (id 2, nonexistent) before P. -/
def dbO : DB :=
  { products := [⟨1, "P", 10, 0, "s"⟩],
    carts := [⟨"b", [⟨2, "Q", 10, 1⟩, ⟨1, "P", 10, 1⟩]⟩],
    orders := [] }

/-- Witness cart for the removal-by-name theorems: two lines with distinct
product ids share the name "N". -/
def dbW : DB :=
  { products := [],
    carts := [⟨"b", [⟨1, "N", 5, 1⟩, ⟨2, "N", 7, 2⟩, ⟨3, "M", 1, 1⟩]⟩],
    orders := [] }

/-- Fixture for the first-failure witness: P has enough stock, Q does not,
R comes later in the cart. -/
def psR : List Product := [⟨1, "P", 10, 3, "s"⟩, ⟨2, "Q", 10, 1, "s"⟩, ⟨3, "R", 10, 9, "s"⟩]

/-- C1: checkout is documented as all-or-nothing, but the code decrements
sequentially: on Scenario B (P stock 5, Q stock 2, cart {P×3, Q×3}) the call
fails on Q, yet P's stock has already been decremented from 5 to 2. -/
theorem placeOrder_scenarioB_nonatomic :
    (placeOrder dbB "b" addrX true true 0).2 = .insufficientStock "Q" ∧
    stockOf dbB 1 = some 5 ∧
    stockOf (placeOrder dbB "b" addrX true true 0).1 1 = some 2 ∧
    stockOf (placeOrder dbB "b" addrX true true 0).1 2 = some 2 ∧
    cartItemsOf (placeOrder dbB "b" addrX true true 0).1 "b" = cartItemsOf dbB "b" := by
  decide

/-- C2: `$addToSet` only absorbs exact duplicates, so adding P with quantity
3 and then quantity 5 leaves two separate lines for P instead of one merged
line with quantity 8. -/
theorem addToCart_no_merge_by_product :
    cartItemsOf (addToCart (addToCart ⟨[productP], [], []⟩ "b" productP 3) "b" productP 5) "b" =
      [⟨1, "P", 10, 3⟩, ⟨1, "P", 10, 5⟩] := by
  decide

/-- C3: when the order insert fails after a successful reservation, the code
performs no compensating release: stock stays decremented (2, not the
pre-reservation 5), no order exists, and the cart is intact. -/
theorem placeOrder_appendFailed_no_release :
    placeOrder dbA "b" addrX true false 0 =
      ({ dbA with products := [⟨1, "P", 10, 2, "s"⟩] }, .appendFailed) ∧
    stockOf (placeOrder dbA "b" addrX true false 0).1 1 = some 2 := by
  decide

/-- C5 counterexample: updating a product that is not in the cart to
quantity 0 does not fail with any not-found error — the removal path filters
by name and reports removal, leaving the database unchanged. -/
theorem updateCartItem_zero_missing_no_error :
    updateCartItem dbU "b" "X" 0 = (dbU, .removed) := by
  decide

/-- C6 counterexample: in ascending product-identity order the first failing
demand is P (id 1 < id 2, stock 0 < requested 1, so an insufficient-stock
error for P would be reported), but the code checks in cart order and
reports Q as not found. -/
theorem placeOrder_error_cart_order :
    (placeOrder dbO "b" addrX true true 0).2 = .productNotFound "Q" ∧
    (cartItemsOf dbO "b").map (fun i => i.productId) = [2, 1] ∧
    stockOf dbO 1 = some 0 ∧
    stockOf dbO 2 = none := by
  decide

/-! ## Helper lemmas about `updateFirst`, `removeFirst` and `List.find?` -/

theorem updateFirst_append_of_none {α : Type} (pr : α → Bool) (f : α → α) {l : List α}
    (h : ∀ x ∈ l, pr x = false) (m : List α) :
    updateFirst pr f (l ++ m) = l ++ updateFirst pr f m := by
  induction l with
  | nil => rfl
  | cons x xs ih =>
    have hx := h x (List.mem_cons_self x xs)
    have ih2 := ih (fun y hy => h y (List.mem_cons_of_mem x hy))
    simp [updateFirst, hx, ih2]

theorem find?_append_of_none {α : Type} {pr : α → Bool} {l : List α}
    (h : l.find? pr = none) (m : List α) : (l ++ m).find? pr = m.find? pr := by
  induction l with
  | nil => rfl
  | cons x xs ih =>
    cases hx : pr x with
    | true => rw [List.find?_cons_of_pos _ hx] at h; cases h
    | false =>
      rw [List.find?_cons_of_neg _ (by simp [hx])] at h
      rw [List.cons_append, List.find?_cons_of_neg _ (by simp [hx])]
      exact ih h

theorem updateFirst_const_self {α : Type} {pr : α → Bool} {l : List α} {y : α}
    (h : l.find? pr = some y) : updateFirst pr (fun _ => y) l = l := by
  induction l with
  | nil => cases h
  | cons x xs ih =>
    cases hx : pr x with
    | true =>
      rw [List.find?_cons_of_pos _ hx] at h
      have hxy : x = y := Option.some.inj h
      subst hxy
      simp [updateFirst, hx]
    | false =>
      rw [List.find?_cons_of_neg _ (by simp [hx])] at h
      simp [updateFirst, hx, ih h]

theorem find?_updateFirst_const {α : Type} {pr : α → Bool} {l : List α} {y z : α}
    (h : l.find? pr = some y) (hz : pr z = true) :
    (updateFirst pr (fun _ => z) l).find? pr = some z := by
  induction l with
  | nil => cases h
  | cons x xs ih =>
    cases hx : pr x with
    | true =>
      simp only [updateFirst, hx, if_true]
      exact List.find?_cons_of_pos _ hz
    | false =>
      rw [List.find?_cons_of_neg _ (by simp [hx])] at h
      simp only [updateFirst, hx, Bool.false_eq_true, if_false]
      rw [List.find?_cons_of_neg _ (by simp [hx])]
      exact ih h

theorem updateFirst_const_idem {α : Type} {pr : α → Bool} {z : α} (hz : pr z = true)
    (l : List α) :
    updateFirst pr (fun _ => z) (updateFirst pr (fun _ => z) l) =
      updateFirst pr (fun _ => z) l := by
  induction l with
  | nil => rfl
  | cons x xs ih =>
    cases hx : pr x with
    | true => simp [updateFirst, hx, hz]
    | false => simp [updateFirst, hx, ih]

theorem mem_updateFirst {α : Type} {pr : α → Bool} {f : α → α} {l : List α} {x : α}
    (h : x ∈ updateFirst pr f l) : x ∈ l ∨ ∃ y, l.find? pr = some y ∧ x = f y := by
  induction l with
  | nil => cases h
  | cons a as ih =>
    cases ha : pr a with
    | true =>
      simp only [updateFirst, ha, if_true] at h
      rcases List.mem_cons.mp h with hx | hx
      · exact Or.inr ⟨a, List.find?_cons_of_pos _ ha, hx⟩
      · exact Or.inl (List.mem_cons_of_mem a hx)
    | false =>
      simp only [updateFirst, ha, Bool.false_eq_true, if_false] at h
      rcases List.mem_cons.mp h with hx | hx
      · exact Or.inl (hx ▸ List.mem_cons_self a as)
      · rcases ih hx with hm | ⟨y, hy, hxy⟩
        · exact Or.inl (List.mem_cons_of_mem a hm)
        · refine Or.inr ⟨y, ?_, hxy⟩
          rw [List.find?_cons_of_neg _ (by simp [ha])]
          exact hy

/-! ## Lemmas about the reservation loop and `placeOrder` -/

theorem reserveLoop_nonneg (items : List CartItem) (ps : List Product)
    (h : ∀ p ∈ ps, 0 ≤ p.quantity) : ∀ p ∈ (reserveLoop items ps).2, 0 ≤ p.quantity := by
  induction items generalizing ps with
  | nil => exact h
  | cons item rest ih =>
    simp only [reserveLoop]
    cases hf : findOneProduct ps item.productId with
    | none => dsimp only; exact h
    | some product =>
      dsimp only
      by_cases hq : product.quantity < item.quantity
      · rw [if_pos hq]; exact h
      · rw [if_neg hq]
        apply ih
        intro p hp
        rcases mem_updateFirst hp with hmem | ⟨y, hy, hxy⟩
        · exact h p hmem
        · have hf2 : List.find? (fun p => p.id == item.productId) ps = some product := hf
          rw [hf2] at hy
          have hy2 : y = product := (Option.some.inj hy).symm
          subst hy2
          subst hxy
          dsimp only
          omega

theorem reserveLoop_fail_shape (items : List CartItem) (ps : List Product) (r : OrderResult)
    (h : (reserveLoop items ps).1 = some r) :
    (∃ n, r = .productNotFound n) ∨ (∃ n, r = .insufficientStock n) := by
  induction items generalizing ps with
  | nil => cases h
  | cons item rest ih =>
    simp only [reserveLoop] at h
    cases hf : findOneProduct ps item.productId with
    | none =>
      rw [hf] at h
      dsimp only at h
      exact Or.inl ⟨item.name, (Option.some.inj h).symm⟩
    | some product =>
      rw [hf] at h
      dsimp only at h
      by_cases hq : product.quantity < item.quantity
      · rw [if_pos hq] at h
        exact Or.inr ⟨item.name, (Option.some.inj h).symm⟩
      · rw [if_neg hq] at h
        exact ih _ h

theorem placeOrder_products_cases (db : DB) (uid : String) (addr : Address)
    (confirm appendOk : Bool) (now : Nat) :
    (placeOrder db uid addr confirm appendOk now).1.products = db.products ∨
    ∃ c, findCart db.carts uid = some c ∧
      (placeOrder db uid addr confirm appendOk now).1.products =
        (reserveLoop c.items db.products).2 := by
  unfold placeOrder
  cases hc : findCart db.carts uid with
  | none => exact Or.inl rfl
  | some c =>
    dsimp only
    by_cases he : c.items.isEmpty
    · rw [if_pos he]; exact Or.inl rfl
    · rw [if_neg he]
      cases confirm with
      | false => exact Or.inl rfl
      | true =>
        rw [if_neg (by simp : ¬ ((!true) = true))]
        right
        refine ⟨c, rfl, ?_⟩
        rcases hr : reserveLoop c.items db.products with ⟨o, ps1⟩
        cases o with
        | none =>
          cases appendOk with
          | true => simp [hr]
          | false => simp [hr]
        | some err => simp [hr]

/-- C4: stock quantities never go negative.  Starting from a database where
every product's quantity is non-negative, `placeOrder` (in every one of its
outcomes, including mid-loop failures) leaves every quantity non-negative;
the seller's stock adjustment rejects, without mutating anything, a change
that would drive the selected product's quantity below zero, and otherwise
also preserves non-negativity. -/
theorem stock_quantity_nonneg (db : DB) (uid : String) (addr : Address)
    (confirm appendOk : Bool) (now : Nat) (sp : Product) (dq : Int)
    (h : ∀ p ∈ db.products, 0 ≤ p.quantity)
    (hsel : findOneProduct db.products sp.id = some sp) :
    (∀ p ∈ (placeOrder db uid addr confirm appendOk now).1.products, 0 ≤ p.quantity) ∧
    (sp.quantity + dq < 0 → updateStock db sp dq = (db, false)) ∧
    (∀ p ∈ (updateStock db sp dq).1.products, 0 ≤ p.quantity) := by
  refine ⟨?_, ?_, ?_⟩
  · rcases placeOrder_products_cases db uid addr confirm appendOk now with hp | ⟨c, _, hp⟩
    · rw [hp]; exact h
    · rw [hp]; exact reserveLoop_nonneg c.items db.products h
  · intro hneg
    unfold updateStock
    rw [if_pos hneg]
  · unfold updateStock
    by_cases hneg : sp.quantity + dq < 0
    · rw [if_pos hneg]; exact h
    · rw [if_neg hneg]
      intro p hp
      rcases mem_updateFirst hp with hmem | ⟨y, hy, hxy⟩
      · exact h p hmem
      · have hy2 : y = sp := by
          unfold findOneProduct at hsel
          rw [hsel] at hy
          exact (Option.some.injEq _ _ ▸ hy).symm
        subst hy2
        subst hxy
        simp only
        omega

/-- Witness for `stock_quantity_nonneg` at a concrete database. -/
theorem stock_quantity_nonneg_witness :
    (∀ p ∈ dbB.products, 0 ≤ p.quantity) ∧
    findOneProduct dbB.products 1 = some ⟨1, "P", 10, 5, "s"⟩ ∧
    ((∀ p ∈ (placeOrder dbB "b" addrX true true 0).1.products, 0 ≤ p.quantity) ∧
     ((⟨1, "P", 10, 5, "s"⟩ : Product).quantity + (-7) < 0 →
        updateStock dbB ⟨1, "P", 10, 5, "s"⟩ (-7) = (dbB, false)) ∧
     (∀ p ∈ (updateStock dbB ⟨1, "P", 10, 5, "s"⟩ (-7)).1.products, 0 ≤ p.quantity)) :=
  ⟨by decide, by decide,
    stock_quantity_nonneg dbB "b" addrX true true 0 ⟨1, "P", 10, 5, "s"⟩ (-7)
      (by decide) (by decide)⟩

/-! ## Cart-store lemmas -/

theorem addToCart_mem (db : DB) (uid : String) (p : Product) (q : Int) :
    ∃ c, findCart (addToCart db uid p q).carts uid = some c ∧
      (⟨p.id, p.name, p.price, q⟩ : CartItem) ∈ c.items := by
  unfold addToCart
  cases hc : findCart db.carts uid with
  | none =>
    dsimp only
    refine ⟨⟨uid, [⟨p.id, p.name, p.price, q⟩]⟩, ?_, by simp⟩
    unfold findCart at hc ⊢
    rw [find?_append_of_none hc]
    exact List.find?_cons_of_pos _ (by simp)
  | some c =>
    dsimp only
    by_cases hm : (⟨p.id, p.name, p.price, q⟩ : CartItem) ∈ c.items
    · rw [if_pos hm]
      refine ⟨c, ?_, hm⟩
      unfold findCart at hc ⊢
      have hz := List.find?_some hc
      exact find?_updateFirst_const hc hz
    · rw [if_neg hm]
      refine ⟨⟨c.userId, c.items ++ [⟨p.id, p.name, p.price, q⟩]⟩, ?_, by simp⟩
      unfold findCart at hc ⊢
      have hz := List.find?_some hc
      exact find?_updateFirst_const hc hz

theorem addToCart_absorb (db : DB) (uid : String) (p : Product) (q : Int) (c : Cart)
    (hc : findCart db.carts uid = some c)
    (hm : (⟨p.id, p.name, p.price, q⟩ : CartItem) ∈ c.items) :
    addToCart db uid p q = db := by
  unfold addToCart
  rw [hc]
  dsimp only
  rw [if_pos hm, updateFirst_const_self hc]

/-- C9: the cart insert is `$addToSet`, keyed on the whole line: adding the
exact same (productId, name, price, quantity) tuple twice leaves the
database — in particular the cart — exactly as after a single add. -/
theorem addToCart_exact_duplicate_absorbed (db : DB) (uid : String) (p : Product) (q : Int) :
    addToCart (addToCart db uid p q) uid p q = addToCart db uid p q := by
  obtain ⟨c, hc, hm⟩ := addToCart_mem db uid p q
  exact addToCart_absorb _ uid p q c hc hm

/-- C7: snapshot fidelity.  Whatever the product catalogue `ps2` looks like
at checkout time — prices or names may have changed arbitrarily since the
lines were added — a successful `placeOrder` appends an order whose lines
are exactly the cart's stored snapshot lines. -/
theorem placeOrder_order_items_snapshot (db : DB) (ps2 : List Product) (uid : String)
    (addr : Address) (now : Nat) (c : Cart)
    (hc : findCart db.carts uid = some c)
    (hs : (placeOrder { db with products := ps2 } uid addr true true now).2 = .success) :
    (placeOrder { db with products := ps2 } uid addr true true now).1.orders =
      db.orders ++ [⟨uid, c.items, now, "Cash on Delivery", addr⟩] := by
  unfold placeOrder at hs ⊢
  dsimp only at hs ⊢
  rw [hc] at hs ⊢
  dsimp only at hs ⊢
  by_cases he : c.items.isEmpty
  · rw [if_pos he] at hs; cases hs
  · rw [if_neg he] at hs ⊢
    rw [if_neg (by simp : ¬ ((!true) = true))] at hs ⊢
    rcases hr : reserveLoop c.items ps2 with ⟨o, ps1⟩
    cases o with
    | some err =>
      rw [hr] at hs
      exfalso
      have := reserveLoop_fail_shape c.items ps2 err (by rw [hr])
      rcases this with ⟨n, hn⟩ | ⟨n, hn⟩ <;> rw [hn] at hs <;> simp at hs
    | none =>
      simp

/-- Witness for `placeOrder_order_items_snapshot`: the cart snapshot has P
at name "P", price 10; by checkout time the product is renamed "Pnew" at
price 99, yet the committed order line still reads (P, 10, qty 3). -/
theorem placeOrder_order_items_snapshot_witness :
    findCart dbA.carts "b" = some ⟨"b", [⟨1, "P", 10, 3⟩]⟩ ∧
    (placeOrder { dbA with products := [⟨1, "Pnew", 99, 5, "s"⟩] } "b" addrX true true 7).2 =
      .success ∧
    (placeOrder { dbA with products := [⟨1, "Pnew", 99, 5, "s"⟩] } "b" addrX true true 7).1.orders =
      dbA.orders ++ [⟨"b", [⟨1, "P", 10, 3⟩], 7, "Cash on Delivery", addrX⟩] :=
  ⟨by decide, by decide,
    placeOrder_order_items_snapshot dbA [⟨1, "Pnew", 99, 5, "s"⟩] "b" addrX 7
      ⟨"b", [⟨1, "P", 10, 3⟩]⟩ (by decide) (by decide)⟩

/-- C8: with an absent or empty cart, `placeOrder` reports the empty cart
and returns the database exactly as it was: no stock change, no order, no
cart mutation. -/
theorem placeOrder_emptyCart_no_action (db : DB) (uid : String) (addr : Address)
    (confirm appendOk : Bool) (now : Nat)
    (h : cartItemsOf db uid = []) :
    placeOrder db uid addr confirm appendOk now = (db, .emptyCart) := by
  unfold placeOrder
  cases hc : findCart db.carts uid with
  | none => rfl
  | some c =>
    have hcc : c.items = [] := by
      unfold cartItemsOf at h
      rw [hc] at h
      exact h
    simp [hcc]

/-- Witness for `placeOrder_emptyCart_no_action` on a database whose only
cart belongs to another buyer. -/
theorem placeOrder_emptyCart_no_action_witness :
    cartItemsOf dbB "nobody" = [] ∧
    placeOrder dbB "nobody" addrX true true 0 = (dbB, .emptyCart) :=
  ⟨by decide, placeOrder_emptyCart_no_action dbB "nobody" addrX true true 0 (by decide)⟩

theorem cartItemsOf_write (db : DB) (uid : String) (c z : Cart)
    (hc : findCart db.carts uid = some c) (hz : z.userId = c.userId) :
    cartItemsOf
      { db with carts := updateFirst (fun k => k.userId == uid) (fun _ => z) db.carts } uid =
      z.items := by
  unfold cartItemsOf findCart
  dsimp only
  have h1 := List.find?_some hc
  have hz2 : (z.userId == uid) = true := by rw [hz]; exact h1
  rw [find?_updateFirst_const hc hz2]

/-- C10: the cart-update removal path is keyed by name and never errors.
For any existing cart, quantity 0 removes every line whose name matches
(also across distinct product ids), reports removal, and when nothing
matches the database is returned entirely unchanged. -/
theorem updateCartItem_remove_by_name (db : DB) (uid pname : String) (c : Cart)
    (hc : findCart db.carts uid = some c) :
    (updateCartItem db uid pname 0).2 = .removed ∧
    cartItemsOf (updateCartItem db uid pname 0).1 uid =
      c.items.filter (fun i => i.name != pname) ∧
    ((∀ i ∈ c.items, (i.name == pname) = false) →
      updateCartItem db uid pname 0 = (db, .removed)) := by
  unfold updateCartItem
  rw [hc]
  dsimp only
  rw [if_pos (le_refl (0 : Int))]
  refine ⟨rfl, ?_, ?_⟩
  · exact cartItemsOf_write db uid c _ hc rfl
  · intro hnone
    have hfilter : c.items.filter (fun i => i.name != pname) = c.items := by
      apply List.filter_eq_self.mpr
      intro a ha
      simp [bne, hnone a ha]
    have heta : ({ c with items := c.items.filter (fun i => i.name != pname) } : Cart) = c := by
      rw [hfilter]
    rw [heta, updateFirst_const_self hc]

/-- Witness for `updateCartItem_remove_by_name`: removing "N" deletes both
id-1 and id-2 lines and keeps the "M" line. -/
theorem updateCartItem_remove_by_name_witness :
    findCart dbW.carts "b" = some ⟨"b", [⟨1, "N", 5, 1⟩, ⟨2, "N", 7, 2⟩, ⟨3, "M", 1, 1⟩]⟩ ∧
    ((updateCartItem dbW "b" "N" 0).2 = .removed ∧
     cartItemsOf (updateCartItem dbW "b" "N" 0).1 "b" =
       ([⟨1, "N", 5, 1⟩, ⟨2, "N", 7, 2⟩, ⟨3, "M", 1, 1⟩] : List CartItem).filter
         (fun i => i.name != "N") ∧
     ((∀ i ∈ (⟨"b", [⟨1, "N", 5, 1⟩, ⟨2, "N", 7, 2⟩, ⟨3, "M", 1, 1⟩]⟩ : Cart).items,
        (i.name == "N") = false) →
       updateCartItem dbW "b" "N" 0 = (dbW, .removed))) :=
  ⟨by decide,
   updateCartItem_remove_by_name dbW "b" "N"
     ⟨"b", [⟨1, "N", 5, 1⟩, ⟨2, "N", 7, 2⟩, ⟨3, "M", 1, 1⟩]⟩ (by decide)⟩

/-- C5 amended: the cart-update contract, keyed by product name.  Quantity 0
removes every line with that name and reports removal (never a not-found
error); a positive quantity replaces the stored quantity of the first line
with that name, and only when no such line exists is not-found reported,
with the database untouched. -/
theorem updateCartItem_contract (db : DB) (uid pname : String) (q : Int) (c : Cart)
    (hc : findCart db.carts uid = some c) :
    (q = 0 → (updateCartItem db uid pname q).2 = .removed ∧
      cartItemsOf (updateCartItem db uid pname q).1 uid =
        c.items.filter (fun i => i.name != pname)) ∧
    (0 < q → c.items.any (fun i => i.name == pname) = false →
      updateCartItem db uid pname q = (db, .notFoundInCart)) ∧
    (0 < q → c.items.any (fun i => i.name == pname) = true →
      (updateCartItem db uid pname q).2 = .updated ∧
      cartItemsOf (updateCartItem db uid pname q).1 uid =
        updateFirst (fun i => i.name == pname) (fun i => { i with quantity := q }) c.items) := by
  unfold updateCartItem
  rw [hc]
  dsimp only
  refine ⟨?_, ?_, ?_⟩
  · intro hq
    subst hq
    rw [if_pos (le_refl (0 : Int))]
    refine ⟨rfl, ?_⟩
    exact cartItemsOf_write db uid c _ hc rfl
  · intro hq hany
    rw [if_neg (by omega), if_neg (by simp [hany])]
  · intro hq hany
    rw [if_neg (by omega), if_pos hany]
    refine ⟨rfl, ?_⟩
    exact cartItemsOf_write db uid c _ hc rfl

/-- Witness for `updateCartItem_contract`: all three branches evaluated on
the two-"N"-lines cart (removal at 0, not-found at "X", update of the first
"N" line at quantity 9). -/
theorem updateCartItem_contract_witness :
    findCart dbW.carts "b" = some ⟨"b", [⟨1, "N", 5, 1⟩, ⟨2, "N", 7, 2⟩, ⟨3, "M", 1, 1⟩]⟩ ∧
    (0 < (9 : Int) → (⟨"b", [⟨1, "N", 5, 1⟩, ⟨2, "N", 7, 2⟩, ⟨3, "M", 1, 1⟩]⟩ : Cart).items.any
        (fun i => i.name == "N") = true →
      (updateCartItem dbW "b" "N" 9).2 = .updated ∧
      cartItemsOf (updateCartItem dbW "b" "N" 9).1 "b" =
        updateFirst (fun i => i.name == "N") (fun i => { i with quantity := (9 : Int) })
          (⟨"b", [⟨1, "N", 5, 1⟩, ⟨2, "N", 7, 2⟩, ⟨3, "M", 1, 1⟩]⟩ : Cart).items) ∧
    (0 < (9 : Int) → (⟨"b", [⟨1, "N", 5, 1⟩, ⟨2, "N", 7, 2⟩, ⟨3, "M", 1, 1⟩]⟩ : Cart).items.any
        (fun i => i.name == "X") = false →
      updateCartItem dbW "b" "X" 9 = (dbW, .notFoundInCart)) :=
  ⟨by decide,
   (updateCartItem_contract dbW "b" "N" 9
     ⟨"b", [⟨1, "N", 5, 1⟩, ⟨2, "N", 7, 2⟩, ⟨3, "M", 1, 1⟩]⟩ (by decide)).2.2,
   (updateCartItem_contract dbW "b" "X" 9
     ⟨"b", [⟨1, "N", 5, 1⟩, ⟨2, "N", 7, 2⟩, ⟨3, "M", 1, 1⟩]⟩ (by decide)).2.1⟩

/-- One unfolding step of the reservation loop, stated as an equation. -/
theorem reserveLoop_cons_eq (item : CartItem) (rest : List CartItem) (ps : List Product) :
    reserveLoop (item :: rest) ps =
      match findOneProduct ps item.productId with
      | none => (some (.productNotFound item.name), ps)
      | some product =>
        if product.quantity < item.quantity then (some (.insufficientStock item.name), ps)
        else reserveLoop rest (incQuantity ps item.productId (-item.quantity)) := rfl

/-- C6 amended: the reservation loop checks demands in cart-line order
(deterministically, being a function of the cart and the catalogue), and
when a prefix of the cart succeeds and the next line fails, the reported
error is that line's — a product-not-found or insufficient-stock error
naming it — regardless of everything after it in the cart. -/
theorem reserveLoop_first_failure_cart_order (good : List CartItem) (bad : CartItem)
    (rest : List CartItem) (ps : List Product)
    (hgood : (reserveLoop good ps).1 = none)
    (hbad : (reserveLoop (good ++ [bad]) ps).1 ≠ none) :
    reserveLoop (good ++ bad :: rest) ps = reserveLoop (good ++ [bad]) ps ∧
    ∃ r, (reserveLoop (good ++ [bad]) ps).1 = some r ∧
      (r = .productNotFound bad.name ∨ r = .insufficientStock bad.name) := by
  induction good generalizing ps with
  | nil =>
    simp only [List.nil_append] at hbad ⊢
    rw [reserveLoop_cons_eq bad rest ps, reserveLoop_cons_eq bad [] ps]
    rw [reserveLoop_cons_eq bad [] ps] at hbad
    revert hbad
    cases hf : findOneProduct ps bad.productId with
    | none =>
      intro hbad
      dsimp only
      exact ⟨rfl, _, rfl, Or.inl rfl⟩
    | some product =>
      intro hbad
      dsimp only at hbad ⊢
      by_cases hq : product.quantity < bad.quantity
      · simp only [if_pos hq] at hbad ⊢
        exact ⟨trivial, _, rfl, Or.inr rfl⟩
      · rw [if_neg hq] at hbad
        exact absurd rfl hbad
  | cons g good ih =>
    simp only [List.cons_append] at hbad ⊢
    rw [reserveLoop_cons_eq g good ps] at hgood
    rw [reserveLoop_cons_eq g (good ++ [bad]) ps] at hbad
    rw [reserveLoop_cons_eq g (good ++ bad :: rest) ps, reserveLoop_cons_eq g (good ++ [bad]) ps]
    revert hgood hbad
    cases hf : findOneProduct ps g.productId with
    | none =>
      intro hgood hbad
      dsimp only at hgood
      cases hgood
    | some product =>
      intro hgood hbad
      dsimp only at hgood hbad ⊢
      by_cases hq : product.quantity < g.quantity
      · rw [if_pos hq] at hgood
        cases hgood
      · simp only [if_neg hq] at hgood hbad ⊢
        exact ih _ hgood hbad

/-- Witness for `reserveLoop_first_failure_cart_order`: after P×1 succeeds,
Q×5 is the first failure, and the R line after it does not change the
outcome. -/
theorem reserveLoop_first_failure_cart_order_witness :
    (reserveLoop [⟨1, "P", 10, 1⟩] psR).1 = none ∧
    (reserveLoop ([⟨1, "P", 10, 1⟩] ++ [⟨2, "Q", 10, 5⟩]) psR).1 ≠ none ∧
    (reserveLoop ([⟨1, "P", 10, 1⟩] ++ ⟨2, "Q", 10, 5⟩ :: [⟨3, "R", 10, 1⟩]) psR =
       reserveLoop ([⟨1, "P", 10, 1⟩] ++ [⟨2, "Q", 10, 5⟩]) psR ∧
     ∃ r, (reserveLoop ([⟨1, "P", 10, 1⟩] ++ [⟨2, "Q", 10, 5⟩]) psR).1 = some r ∧
       (r = .productNotFound (⟨2, "Q", 10, 5⟩ : CartItem).name ∨
        r = .insufficientStock (⟨2, "Q", 10, 5⟩ : CartItem).name)) :=
  ⟨by decide, by decide,
   reserveLoop_first_failure_cart_order [⟨1, "P", 10, 1⟩] ⟨2, "Q", 10, 5⟩ [⟨3, "R", 10, 1⟩]
     psR (by decide) (by decide)⟩

end Superstore
